import Mathlib

/-!
Shallow embedding of the reverted/authorizer middleware.

The development models three layers of the Go source:

* `Notary` — the token validator of `notary.go` (`Notarize`, `notarize`,
  `refreshPublicKey`, `fetchPublicKey`).  The JWT library calls
  (`jwt.ParseSigned`, `parsed.Claims`, `claims.Validate`) are modelled by a
  `Token` record carrying the outcome of each library call: whether the
  compact token parses, which key signed it, whether its time-based claims
  are currently invalid, its audience list and its raw claim map.  An RSA
  public key is modelled by an abstract identifier: signature verification
  against a key succeeds exactly when the token was signed by that key.
  The HTTP fetch performed during a refresh is modelled by a `FetchResult`
  argument describing the response the configured client would produce.

* `Authorizer` — the bearer extractor of `authorizer.go`
  (`Authorize`, `updateContext`), parametric in the `Notary` collaborator it
  delegates to, exactly as the Go interface is.

* `Handler` — the authorization chain of the handler source
  (`ServeHTTP`, `Serve`, `updateContext`, and the `Matches` methods of
  `BasicAuthCredential`, `AuthorizedToken`, `AuthorizedClaim`, `ApiKey`).
  The verification strategy (`h.Authorizer.Authorize`) is a function
  parameter; `r.BasicAuth()` is modelled by a request field holding the
  credentials that call would parse out of the request; the composite
  `base64.StdEncoding.DecodeString` + `json.Unmarshal` used on static
  token values is a function parameter `decode` returning `none` whenever
  either library call fails (or yields a nil map).

Go `map[string]interface{}` claim values are modelled by the `Value` type;
claim maps and the request context are association lists, with Go's
zero-value semantics for lookups (`.vNull` for an absent key).
-/

/-- Model of a Go `interface{}` claim value.  `.vNull` is Go's nil,
which is also what a map lookup of an absent key produces. -/
inductive Value where
  | vNull : Value
  | vStr : String → Value
  | vNum : Int → Value
  | vBool : Bool → Value
deriving DecidableEq

/-- Model of `map[string]interface{}`: an association list with the unique
keys of a Go map. -/
abbrev ClaimMap := List (String × Value)

/-- Go map indexing `m[k]`: the stored value, or the zero value nil when
the key is absent. -/
def lookupV : ClaimMap → String → Value
  | [], _ => .vNull
  | (k', v) :: rest, k => if k' = k then v else lookupV rest k

/-- Lookup through a possibly-nil Go map (`var m map[string]any = nil`):
indexing a nil map also yields the zero value. -/
def lookupV? : Option ClaimMap → String → Value
  | none, _ => .vNull
  | some m, k => lookupV m k

/-- Model of a request context (`context.Context`): `context.WithValue`
conses an entry, `ctx.Value` finds the most recently added binding. -/
abbrev Ctx := List (String × Value)

/-- Model of `ctx.Value(k)`: innermost (most recently added) binding wins;
`none` when the key was never set. -/
def ctxValue : Ctx → String → Option Value
  | [], _ => none
  | (k', v) :: rest, k => if k' = k then some v else ctxValue rest k

/-- The Go `error` values this code base produces: the sentinel errors of
`notary.go` and `authorizer.go`, plus the ad-hoc errors of the key fetch
(a transport failure from `Client.Get`, the "Failed to fetch public key"
error for a non-200 status, and a JSON decode failure of the body). -/
inductive GoError where
  | missingAuthHeader : GoError
  | invalidAuthHeader : GoError
  | noPublicKey : GoError
  | invalidToken : GoError
  | invalidSignature : GoError
  | tokenExpired : GoError
  | invalidAudience : GoError
  | noTargetSet : GoError
  | noKeysFound : GoError
  | fetchStatusNotOK (status : Nat) : GoError
  | bodyDecodeError : GoError
  | transportError : GoError
deriving DecidableEq

/-- Abstract identifier for an `*rsa.PublicKey`. -/
abbrev Key := Nat

/-- Model of a compact signed token string, recording the outcomes of the
JWT library calls `notarize` makes on it: `wellFormed` is whether
`jwt.ParseSigned` succeeds, `sigKey` the key that signed it (so
`parsed.Claims(pk, ...)` succeeds exactly when `pk` matches `sigKey`),
`expired` whether `claims.Validate(jwt.Expected{Time: time.Now()})` fails
at the moment of the call, `audience` the token's audience list, and
`claims` the raw decoded claim map. -/
structure Token where
  wellFormed : Bool
  sigKey : Key
  expired : Bool
  audience : List String
  claims : ClaimMap
deriving DecidableEq

/-- The body of a key-set fetch response: either the JSON decoder fails on
it, or it decodes to a JSON Web Key Set with the given list of keys. -/
inductive FetchBody where
  | decodeError : FetchBody
  | keySet (keys : List Key) : FetchBody
deriving DecidableEq

/-- The outcome the HTTP client would produce for a key-set fetch:
a transport error from `Client.Get`, or a response with a status code
and a body. -/
inductive FetchResult where
  | transportError : FetchResult
  | response (status : Nat) (body : FetchBody) : FetchResult
deriving DecidableEq

/-- The `notary` struct of `notary.go`: the optional target URL (modelled
by whether one is set), the cached public key (nil until first refresh
unless configured), and the configured audiences. -/
structure Notary where
  url : Option String
  publicKey : Option Key
  audience : List String
deriving DecidableEq

/-- `notary.notarize`: nil key check, parse, signature verification,
time-based validation, then the audience loop (`return raw, nil` on the
first configured audience contained in the token's audience list). -/
def Notary.notarize (self : Notary) (t : Token) : Except GoError ClaimMap :=
  match self.publicKey with
  | none => .error .noPublicKey
  | some key =>
    if !t.wellFormed then .error .invalidToken
    else if t.sigKey ≠ key then .error .invalidSignature
    else if t.expired then .error .tokenExpired
    else if self.audience.any (fun aud => t.audience.contains aud) then .ok t.claims
    else .error .invalidAudience

/-- `notary.fetchPublicKey`: nil-URL check, one GET to the target, non-200
status check, JSON decode of the body into a key set, empty-list check,
and finally `data.Keys[0].Public().Key` — only the first key is used. -/
def Notary.fetchPublicKey (self : Notary) (f : FetchResult) : Except GoError Key :=
  match self.url with
  | none => .error .noTargetSet
  | some _ =>
    match f with
    | .transportError => .error .transportError
    | .response status body =>
      if status ≠ 200 then .error (.fetchStatusNotOK status)
      else
        match body with
        | .decodeError => .error .bodyDecodeError
        | .keySet [] => .error .noKeysFound
        | .keySet (k :: _) => .ok k

/-- `notary.refreshPublicKey`: under the lock, fetch; on error return it
(leaving `self.PublicKey` untouched), on success replace the cached key. -/
def Notary.refreshPublicKey (self : Notary) (f : FetchResult) :
    Except GoError Notary :=
  match self.fetchPublicKey f with
  | .error e => .error e
  | .ok k => .ok { self with publicKey := some k }

/-- The body of the `case ErrNoPublicKey, ErrInvalidSignature` branch of
`Notarize`: refresh, propagate a refresh error, otherwise retry
`notarize` once.  The returned `Notary` is the state after the call and
the `Nat` counts the refresh attempts made. -/
def Notary.retryNotarize (self : Notary) (t : Token) (f : FetchResult) :
    Except GoError ClaimMap × Notary × Nat :=
  match self.refreshPublicKey f with
  | .error e => (.error e, self, 1)
  | .ok s' => (s'.notarize t, s', 1)

/-- `notary.Notarize`: one `notarize` attempt; on `ErrNoPublicKey` or
`ErrInvalidSignature` refresh the key set and retry once; every other
outcome is returned as is.  Results carry the post-call state and the
number of refreshes performed. -/
def Notary.Notarize (self : Notary) (t : Token) (f : FetchResult) :
    Except GoError ClaimMap × Notary × Nat :=
  match self.notarize t with
  | .error .noPublicKey => self.retryNotarize t f
  | .error .invalidSignature => self.retryNotarize t f
  | r => (r, self, 0)

/-- Model of an `*http.Request` as this code base reads it: the
`Authorization` header's value list (`r.Header["Authorization"]`; its head
is what `r.Header.Get` returns), the `X-Api-Key` value list, the
credentials `r.BasicAuth()` would parse out of the request (none when the
header is absent or not a well-formed Basic header), and the request
context. -/
structure Request where
  authorization : List String
  xApiKey : List String
  basicAuth : Option (String × String)
  ctx : Ctx
deriving DecidableEq

/-- `r.Header.Get(name)`: first value, or the empty string when the header
is absent. -/
def headerGet : List String → String
  | [] => ""
  | v :: _ => v

/-- Character-list worker for `strings.Split(s, " ")`: split at every
space character, keeping empty fields (Go keeps them too). -/
def splitSpaces : List Char → List (List Char)
  | [] => [[]]
  | c :: rest =>
    if c = ' ' then [] :: splitSpaces rest
    else
      match splitSpaces rest with
      | [] => [[c]]
      | f :: fs => (c :: f) :: fs

/-- Model of Go `strings.Split(s, " ")`. -/
def goSplitSpace (s : String) : List String :=
  (splitSpaces s.data).map String.mk

/-- Model of `strings.ToLower` on one character, restricted to the ASCII
range — which is all the scheme comparisons of this code base need. -/
def goToLowerChar (c : Char) : Char :=
  if 'A' ≤ c ∧ c ≤ 'Z' then Char.ofNat (c.toNat + 32) else c

/-- Model of Go `strings.ToLower` (ASCII range). -/
def goToLower (s : String) : String :=
  String.mk (s.data.map goToLowerChar)

/-- The `authorizer` struct of `authorizer.go`.  Its `ClaimMapping` is the
Go map `map[from]to` built by `IncludeClaimAs(from, to)`, i.e. a list of
(claim name, context key) pairs with unique claim names. -/
structure Authorizer where
  claimMapping : List (String × String)

/-- `authorizer.updateContext`: for every (claim, key) pair of the mapping
set `key` in the context to `data[claim]`, then install the new context on
the request. -/
def Authorizer.updateContext (a : Authorizer) (r : Request) (data : ClaimMap) :
    Request :=
  { r with ctx := a.claimMapping.foldl (fun c p => (p.2, lookupV data p.1) :: c) r.ctx }

/-- `authorizer.Authorize`: missing `Authorization` header, then the
two-part split with case-insensitive scheme check, then delegation of the
value part to the notary collaborator (a `String → claims or error`
function, as the `Notary` interface); a notary error is returned
unchanged, success updates the request context. -/
def Authorizer.Authorize (a : Authorizer)
    (notaryFn : String → Except GoError ClaimMap) (r : Request) :
    Except GoError Request :=
  match r.authorization with
  | [] => .error .missingAuthHeader
  | h :: _ =>
    match goSplitSpace h with
    | [scheme, value] =>
      if goToLower scheme = "bearer" then
        match notaryFn value with
        | .error e => .error e
        | .ok data => .ok (a.updateContext r data)
      else .error .invalidAuthHeader
    | _ => .error .invalidAuthHeader

/-- `BasicAuthCredential.Matches`: `r.BasicAuth()` must succeed and both
fields must equal the configured pair. -/
def BasicAuthCredential.Matches (c : String × String) (r : Request) : Bool :=
  match r.basicAuth with
  | none => false
  | some (user, pass) => c.1 = user && c.2 = pass

/-- `AuthorizedToken.Matches`: empty or non-bearer `Authorization` header,
or a bearer value different from the configured token value, is no match;
on a match the value is decoded (`decode` models the composite
`base64.StdEncoding.DecodeString` then `json.Unmarshal` into a
`map[string]any`, `none` when either fails or yields a nil map) and the
decoded claims — nil on decode failure — are returned alongside `true`. -/
def AuthorizedToken.Matches (decode : String → Option ClaimMap)
    (value : String) (r : Request) : Option ClaimMap × Bool :=
  let header := headerGet r.authorization
  if header = "" then (none, false)
  else
    match goSplitSpace header with
    | [scheme, tok] =>
      if goToLower scheme ≠ "bearer" then (none, false)
      else if tok ≠ value then (none, false)
      else (decode tok, true)
    | _ => (none, false)

/-- `AuthorizedClaim.Matches`: `claims[c.Key] == c.Value`, with Go's
zero-value lookup on a possibly-nil map.  The request argument of the Go
method is unused there and omitted here. -/
def AuthorizedClaim.Matches (claims : Option ClaimMap) (c : String × Value) :
    Bool :=
  lookupV? claims c.1 = c.2

/-- `ApiKey.Matches`: empty `X-Api-Key` header is no match, otherwise the
header must equal the configured value. -/
def ApiKey.Matches (value : String) (r : Request) : Bool :=
  let header := headerGet r.xApiKey
  if header = "" then false else header = value

/-- The `handler` struct of the authorization chain.  `ClaimMapping` is
the Go map `map[to]from` built by `IncludeClaimInContextAs(from, to)`,
i.e. a list of (context key, claim name) pairs with unique context keys. -/
structure Handler where
  basicAuthCredentials : List (String × String)
  authorizedTokens : List String
  authorizedClaims : List (String × Value)
  apiKeys : List String
  claimMapping : List (String × String)

/-- `handler.updateContext`: a nil claim set sets nothing; otherwise for
every (key, claim) pair of the mapping set `key` in the context to
`data[claim]` and install the new context on the request. -/
def Handler.updateContext (h : Handler) (r : Request) (data : Option ClaimMap) :
    Request :=
  match data with
  | none => r
  | some m =>
    { r with ctx := h.claimMapping.foldl (fun c p => (p.1, lookupV m p.2) :: c) r.ctx }

/-- The `for _, token := range h.AuthorizedTokens` loop of `Serve`: the
claims of the first matching configured token, `none` when no token
matches. -/
def firstTokenMatch (decode : String → Option ClaimMap) (r : Request) :
    List String → Option (Option ClaimMap)
  | [] => none
  | value :: rest =>
    match AuthorizedToken.Matches decode value r with
    | (claims, true) => some claims
    | (_, false) => firstTokenMatch decode r rest

/-- The outcome of a request through the chain: either the wrapped handler
is invoked with the (possibly context-enriched) request, or the chain
writes an unauthorized status and stops. -/
inductive Outcome where
  | forwarded (r : Request) : Outcome
  | unauthorized : Outcome
deriving DecidableEq

/-- `handler.Serve`: basic credentials first, then static tokens (whose
decoded claims are projected into the context before forwarding), then the
verification strategy (failure is an immediate unauthorized response;
success projects its claims), then the required-claim loop, and finally
the pass-through check: deny when any of the three credential lists is
configured, forward otherwise. -/
def Handler.Serve (h : Handler) (decode : String → Option ClaimMap)
    (strategy : Request → Except GoError (Option ClaimMap)) (r : Request) :
    Outcome :=
  if h.basicAuthCredentials.any (fun c => BasicAuthCredential.Matches c r) then
    .forwarded r
  else
    match firstTokenMatch decode r h.authorizedTokens with
    | some claims => .forwarded (h.updateContext r claims)
    | none =>
      match strategy r with
      | .error _ => .unauthorized
      | .ok claims =>
        let r' := h.updateContext r claims
        if h.authorizedClaims.any (fun c => AuthorizedClaim.Matches claims c) then
          .forwarded r'
        else if !h.basicAuthCredentials.isEmpty || !h.authorizedTokens.isEmpty
            || !h.authorizedClaims.isEmpty then
          .unauthorized
        else
          .forwarded r'

/-- `handler.ServeHTTP`: the API-key gate — no configured keys skips the
gate, otherwise some configured key must match the request or the chain
answers unauthorized without running `Serve`. -/
def Handler.ServeHTTP (h : Handler) (decode : String → Option ClaimMap)
    (strategy : Request → Except GoError (Option ClaimMap)) (r : Request) :
    Outcome :=
  if h.apiKeys.isEmpty then h.Serve decode strategy r
  else if h.apiKeys.any (fun k => ApiKey.Matches k r) then h.Serve decode strategy r
  else .unauthorized

/-! ## Helper lemmas about the notary -/

/-- A successful first attempt is returned as is, with no refresh. -/
theorem Notarize_eq_of_ok (s : Notary) (t : Token) (f : FetchResult)
    (m : ClaimMap) (h : s.notarize t = .ok m) :
    s.Notarize t f = (.ok m, s, 0) := by
  unfold Notary.Notarize
  rw [h]

/-- A first attempt failing with one of the two retryable errors enters the
refresh-and-retry branch. -/
theorem Notarize_eq_of_retryable (s : Notary) (t : Token) (f : FetchResult)
    (h : s.notarize t = .error .noPublicKey ∨
      s.notarize t = .error .invalidSignature) :
    s.Notarize t f = s.retryNotarize t f := by
  unfold Notary.Notarize
  rcases h with h | h <;> rw [h]

/-- A first attempt failing with any other error is returned as is, with no
refresh. -/
theorem Notarize_eq_of_other (s : Notary) (t : Token) (f : FetchResult)
    (e : GoError) (h : s.notarize t = .error e)
    (h1 : e ≠ .noPublicKey) (h2 : e ≠ .invalidSignature) :
    s.Notarize t f = (.error e, s, 0) := by
  unfold Notary.Notarize
  rw [h]
  cases e <;> simp_all

/-- `notarize` only ever fails with one of its five sentinel errors. -/
theorem notarize_error_cases (s : Notary) (t : Token) (e : GoError)
    (h : s.notarize t = .error e) :
    e = .noPublicKey ∨ e = .invalidToken ∨ e = .invalidSignature ∨
      e = .tokenExpired ∨ e = .invalidAudience := by
  rcases hp : s.publicKey with _ | k <;>
    simp only [Notary.notarize, hp] at h
  · exact Or.inl (Except.error.inj h).symm
  · split_ifs at h with hw hs he ha
    · exact Or.inr (Or.inl (Except.error.inj h).symm)
    · exact Or.inr (Or.inr (Or.inl (Except.error.inj h).symm))
    · exact Or.inr (Or.inr (Or.inr (Or.inl (Except.error.inj h).symm)))
    · exact Or.inr (Or.inr (Or.inr (Or.inr (Except.error.inj h).symm)))

/-- `fetchPublicKey` only ever fails with a refresh-path error. -/
theorem fetchPublicKey_error_cases (s : Notary) (f : FetchResult) (e : GoError)
    (h : s.fetchPublicKey f = .error e) :
    e = .noTargetSet ∨ e = .transportError ∨
      (∃ st, e = .fetchStatusNotOK st) ∨ e = .bodyDecodeError ∨
      e = .noKeysFound := by
  rcases hu : s.url with _ | u <;>
    simp only [Notary.fetchPublicKey, hu] at h
  · exact Or.inl (Except.error.inj h).symm
  · rcases f with _ | ⟨status, body⟩
    · exact Or.inr (Or.inl (Except.error.inj h).symm)
    · simp only at h
      split_ifs at h with hs
      · exact Or.inr (Or.inr (Or.inl ⟨status, (Except.error.inj h).symm⟩))
      · rcases body with _ | keys
        · exact Or.inr (Or.inr (Or.inr (Or.inl (Except.error.inj h).symm)))
        · rcases keys with _ | ⟨k, rest⟩
          · exact Or.inr (Or.inr (Or.inr (Or.inr (Except.error.inj h).symm)))
          · exact absurd h (by simp)

/-- A failed refresh propagates the fetch error and changes nothing. -/
theorem refreshPublicKey_error (s : Notary) (f : FetchResult) (e : GoError)
    (h : s.fetchPublicKey f = .error e) :
    s.refreshPublicKey f = .error e := by
  unfold Notary.refreshPublicKey
  rw [h]

/-- A refresh failure is itself a fetch failure. -/
theorem refreshPublicKey_error_inv (s : Notary) (f : FetchResult) (e : GoError)
    (h : s.refreshPublicKey f = .error e) :
    s.fetchPublicKey f = .error e := by
  unfold Notary.refreshPublicKey at h
  rcases hf : s.fetchPublicKey f with e' | k <;> rw [hf] at h <;> simp at h
  rw [h]

/-- Both branches of the retry path perform exactly one refresh attempt. -/
theorem retryNotarize_count (s : Notary) (t : Token) (f : FetchResult) :
    (s.retryNotarize t f).2.2 = 1 := by
  unfold Notary.retryNotarize
  rcases h : s.refreshPublicKey f with e | s' <;> rfl

/-! ## Concrete fixtures used by the witnesses -/

/-- A notary with a configured target and audiences a, b but no cached key. -/
def sampleNotary : Notary := ⟨some "https://keys.example", none, ["a", "b"]⟩

/-- The same notary after caching key 5. -/
def sampleNotaryWithKey : Notary := ⟨some "https://keys.example", some 5, ["a", "b"]⟩

/-- A notary with no key-set target configured and no cached key. -/
def sampleNoTargetNotary : Notary := ⟨none, none, ["a"]⟩

/-- A parseable, unexpired token signed by key 5 with audience list [b]. -/
def sampleToken : Token := ⟨true, 5, false, ["b"], [("sub", .vStr "alice")]⟩

/-- A parseable, unexpired token signed by key 9 with audience list [b]. -/
def sampleTokenKey9 : Token := ⟨true, 9, false, ["b"], []⟩

/-- A fetch result delivering a key-set document listing keys 5 then 9. -/
def sampleFetch : FetchResult := .response 200 (.keySet [5, 9])

/-! ## Claim theorems about the notary -/

/-- C1: Notarize performs at most one key-set refresh per call; a refresh
is triggered iff the first validation attempt fails with ErrNoPublicKey or
ErrInvalidSignature, after which (when the refresh succeeds) the whole
validation sequence is retried exactly once from the refreshed state and
that result is returned with no further refresh; first-attempt failures of
kind ErrInvalidToken, ErrTokenExpired or ErrInvalidAudience are returned
immediately with no refresh. -/
theorem C1_notarize_refresh_policy (s : Notary) (t : Token) (f : FetchResult) :
    (s.Notarize t f).2.2 ≤ 1
    ∧ ((s.Notarize t f).2.2 = 1 ↔
        (s.notarize t = .error .noPublicKey ∨
          s.notarize t = .error .invalidSignature))
    ∧ (∀ s', (s.notarize t = .error .noPublicKey ∨
          s.notarize t = .error .invalidSignature) →
        s.refreshPublicKey f = .ok s' →
        s.Notarize t f = (s'.notarize t, s', 1))
    ∧ (∀ e, s.notarize t = .error e →
        (e = .invalidToken ∨ e = .tokenExpired ∨ e = .invalidAudience) →
        s.Notarize t f = (.error e, s, 0)) := by
  by_cases hr : s.notarize t = .error .noPublicKey ∨
      s.notarize t = .error .invalidSignature
  · have heq := Notarize_eq_of_retryable s t f hr
    rw [heq]
    refine ⟨le_of_eq (retryNotarize_count s t f), ?_, ?_, ?_⟩
    · exact ⟨fun _ => hr, fun _ => retryNotarize_count s t f⟩
    · intro s' _ hok
      unfold Notary.retryNotarize
      rw [hok]
    · intro e he hkind
      exfalso
      rcases hr with hr | hr <;> rw [hr] at he <;>
        have he' := (Except.error.inj he).symm <;>
        rcases hkind with hk | hk | hk <;> rw [hk] at he' <;> cases he'
  · rcases h : s.notarize t with e | m
    · rw [h] at hr
      have hne1 : e ≠ .noPublicKey := fun hh => hr (Or.inl (by rw [hh]))
      have hne2 : e ≠ .invalidSignature := fun hh => hr (Or.inr (by rw [hh]))
      rw [Notarize_eq_of_other s t f e h hne1 hne2]
      refine ⟨by simp, iff_of_false (by simp) hr, ?_, ?_⟩
      · intro s' hd _
        exact absurd hd hr
      · intro e' he' _
        rw [Except.error.inj he']
    · rw [h] at hr
      rw [Notarize_eq_of_ok s t f m h]
      refine ⟨by simp, iff_of_false (by simp) hr, ?_, ?_⟩
      · intro s' hd _
        exact absurd hd hr
      · intro e' he' _
        cases he'

/-- Witness for C1: a notary with no cached key refreshes once on a fetch
yielding key 5 and the retried attempt validates the token. -/
theorem C1_witness :
    sampleNotary.Notarize sampleToken sampleFetch =
      (.ok sampleToken.claims, sampleNotaryWithKey, 1) := by
  have h := (C1_notarize_refresh_policy sampleNotary sampleToken sampleFetch).2.2.1
    sampleNotaryWithKey (Or.inl rfl) rfl
  rw [h]
  rfl

/-- C3: for a parsed, signature-valid, unexpired token, notarize succeeds
with the decoded claim map iff some configured audience is contained in
the token's audience list; otherwise — in particular whenever the
configured audience list is empty — it fails with ErrInvalidAudience. -/
theorem C3_notarize_audience (s : Notary) (t : Token) (k : Key)
    (hk : s.publicKey = some k) (hwf : t.wellFormed = true)
    (hsig : t.sigKey = k) (hexp : t.expired = false) :
    (s.notarize t = .ok t.claims ↔
      s.audience.any (fun aud => t.audience.contains aud) = true)
    ∧ (s.audience.any (fun aud => t.audience.contains aud) = false →
        s.notarize t = .error .invalidAudience)
    ∧ (s.audience = [] → s.notarize t = .error .invalidAudience) := by
  by_cases ha : s.audience.any (fun aud => t.audience.contains aud) = true
  · refine ⟨?_, ?_, ?_⟩
    · simp [Notary.notarize, hk, hwf, hsig, hexp, ha]
    · intro hcontra
      rw [ha] at hcontra
      cases hcontra
    · intro he
      rw [he] at ha
      cases ha
  · have ha' : s.audience.any (fun aud => t.audience.contains aud) = false := by
      simpa using ha
    refine ⟨?_, ?_, ?_⟩
    · simp [Notary.notarize, hk, hwf, hsig, hexp, ha']
    · intro _
      simp [Notary.notarize, hk, hwf, hsig, hexp]
      simpa using ha'
    · intro he
      simp [Notary.notarize, hk, hwf, hsig, hexp, he]

/-- Witness for C3: configured audiences a, b and token audience list [b]
validate successfully. -/
theorem C3_witness :
    sampleNotaryWithKey.notarize sampleToken = .ok sampleToken.claims :=
  ((C3_notarize_audience sampleNotaryWithKey sampleToken 5 rfl rfl rfl rfl).1).mpr
    (by decide)

/-- C4: a failed refresh surfaces the fetch error — never
ErrInvalidSignature — to the current caller, and the previously cached key
material is left unchanged. -/
theorem C4_refresh_failure (s : Notary) (t : Token) (f : FetchResult)
    (e : GoError) (hf : s.refreshPublicKey f = .error e) :
    (s.Notarize t f).2.1 = s
    ∧ e ≠ .invalidSignature
    ∧ ((s.notarize t = .error .noPublicKey ∨
          s.notarize t = .error .invalidSignature) →
        (s.Notarize t f).1 = .error e) := by
  have hfe := fetchPublicKey_error_cases s f e (refreshPublicKey_error_inv s f e hf)
  refine ⟨?_, ?_, ?_⟩
  · rcases h : s.notarize t with e' | m
    · by_cases h1 : e' = .noPublicKey ∨ e' = .invalidSignature
      · have hd : s.notarize t = .error .noPublicKey ∨
            s.notarize t = .error .invalidSignature := by
          rcases h1 with h1 | h1 <;> rw [h1] at h
          · exact Or.inl h
          · exact Or.inr h
        rw [Notarize_eq_of_retryable s t f hd]
        unfold Notary.retryNotarize
        rw [hf]
      · push_neg at h1
        rw [Notarize_eq_of_other s t f e' h h1.1 h1.2]
    · rw [Notarize_eq_of_ok s t f m h]
  · rcases hfe with h | h | ⟨st, h⟩ | h | h <;> rw [h] <;> simp
  · intro hd
    rw [Notarize_eq_of_retryable s t f hd]
    unfold Notary.retryNotarize
    rw [hf]

/-- Witness for C4: with no target configured, Notarize on a notary with
no cached key returns ErrNoTargetSet and leaves the state unchanged. -/
theorem C4_witness :
    (sampleNoTargetNotary.Notarize sampleToken .transportError).1 =
      .error .noTargetSet
    ∧ (sampleNoTargetNotary.Notarize sampleToken .transportError).2.1 =
      sampleNoTargetNotary := by
  have h := C4_refresh_failure sampleNoTargetNotary sampleToken .transportError
    .noTargetSet rfl
  exact ⟨h.2.2 (Or.inl rfl), h.1⟩

/-- C9: when Notarize succeeds with a claim map, an immediately repeated
call on the same token from the resulting state succeeds with the
identical claim map (performing no refresh). -/
theorem C9_Notarize_idempotent (s : Notary) (t : Token) (f f' : FetchResult)
    (m : ClaimMap) (h : (s.Notarize t f).1 = .ok m) :
    ((s.Notarize t f).2.1).Notarize t f' = (.ok m, (s.Notarize t f).2.1, 0) := by
  rcases hn : s.notarize t with e | raw
  · by_cases h1 : e = .noPublicKey ∨ e = .invalidSignature
    · have hd : s.notarize t = .error .noPublicKey ∨
          s.notarize t = .error .invalidSignature := by
        rcases h1 with h1 | h1 <;> rw [h1] at hn
        · exact Or.inl hn
        · exact Or.inr hn
      have heq := Notarize_eq_of_retryable s t f hd
      rw [heq] at h ⊢
      unfold Notary.retryNotarize at h ⊢
      rcases hr : s.refreshPublicKey f with e2 | s'
      · rw [hr] at h
        have h' : (Except.error e2 : Except GoError ClaimMap) = Except.ok m := h
        cases h'
      · rw [hr] at h
        have h' : s'.notarize t = Except.ok m := h
        exact Notarize_eq_of_ok s' t f' m h'
    · push_neg at h1
      rw [Notarize_eq_of_other s t f e hn h1.1 h1.2] at h
      simp at h
  · rw [Notarize_eq_of_ok s t f raw hn] at h ⊢
    simp only at h ⊢
    have hraw : raw = m := Except.ok.inj h
    rw [hraw] at hn
    exact Notarize_eq_of_ok s t f' m hn

/-- Witness for C9: a second Notarize call on the same valid token returns
the identical claim map. -/
theorem C9_witness :
    ((sampleNotaryWithKey.Notarize sampleToken sampleFetch).2.1).Notarize
        sampleToken sampleFetch =
      (.ok sampleToken.claims,
        (sampleNotaryWithKey.Notarize sampleToken sampleFetch).2.1, 0) :=
  C9_Notarize_idempotent sampleNotaryWithKey sampleToken sampleFetch sampleFetch
    sampleToken.claims (by rfl)

/-- C10: a successful refresh caches only the first key of the fetched
key-set document; a well-formed token signed by any later key of that
document still fails with ErrInvalidSignature against the refreshed
state. -/
theorem C10_first_key_only (s : Notary) (u : String) (k : Key)
    (rest : List Key) (t : Token) (hu : s.url = some u)
    (hwf : t.wellFormed = true) (hmem : t.sigKey ∈ rest) (hne : t.sigKey ≠ k) :
    s.refreshPublicKey (.response 200 (.keySet (k :: rest))) =
      .ok { s with publicKey := some k }
    ∧ ({ s with publicKey := some k } : Notary).notarize t =
        .error .invalidSignature := by
  constructor
  · simp [Notary.refreshPublicKey, Notary.fetchPublicKey, hu]
  · simp [Notary.notarize, hwf, hne]

/-- Witness for C10: the fetched document lists keys 5 then 9; only 5 is
cached and a token signed by 9 is rejected with ErrInvalidSignature. -/
theorem C10_witness :
    sampleNotary.refreshPublicKey (.response 200 (.keySet [5, 9])) =
      .ok sampleNotaryWithKey
    ∧ sampleNotaryWithKey.notarize sampleTokenKey9 =
      .error .invalidSignature := by
  have h := C10_first_key_only sampleNotary "https://keys.example" 5 [9]
    sampleTokenKey9 rfl rfl (by decide) (by decide)
  exact ⟨h.1, h.2⟩

/-! ## Claim theorems about the bearer extractor -/

/-- A bearer extractor mapping claim sub to context key user. -/
def sampleAuthorizer : Authorizer := ⟨[("sub", "user")]⟩

/-- A request carrying one well-formed bearer Authorization header. -/
def sampleBearerRequest : Request := ⟨["Bearer tok"], [], none, []⟩

/-- A notary collaborator that rejects every token as malformed. -/
def rejectAllNotary : String → Except GoError ClaimMap :=
  fun _ => .error .invalidToken

/-- C5: Authorize returns ErrMissingAuthorizationHeader exactly when no
Authorization header is present; with a header present it returns
ErrInvalidAuthorizationHeader exactly when the header value does not split
on spaces into exactly two parts with case-insensitive scheme bearer; and
for a well-formed bearer header it delegates the value part to the token
validator, propagating a validator error unchanged and updating the
request context on success.  The validator is assumed never to produce the
two header errors itself, which the notary of this code base never
does. -/
theorem C5_authorize_header_policy (a : Authorizer)
    (notaryFn : String → Except GoError ClaimMap) (r : Request)
    (hn : ∀ v e, notaryFn v = .error e →
      e ≠ .missingAuthHeader ∧ e ≠ .invalidAuthHeader) :
    (a.Authorize notaryFn r = .error .missingAuthHeader ↔ r.authorization = [])
    ∧ (∀ h rest, r.authorization = h :: rest →
        (a.Authorize notaryFn r = .error .invalidAuthHeader ↔
          ¬ ∃ scheme value, goSplitSpace h = [scheme, value] ∧
            goToLower scheme = "bearer"))
    ∧ (∀ h rest scheme value, r.authorization = h :: rest →
        goSplitSpace h = [scheme, value] → goToLower scheme = "bearer" →
        (∀ e, notaryFn value = .error e → a.Authorize notaryFn r = .error e)
        ∧ (∀ m, notaryFn value = .ok m →
            a.Authorize notaryFn r = .ok (a.updateContext r m))) := by
  rcases hauth : r.authorization with _ | ⟨h0, rest0⟩
  · have hA : a.Authorize notaryFn r = .error .missingAuthHeader := by
      simp [Authorizer.Authorize, hauth]
    refine ⟨?_, ?_, ?_⟩
    · rw [hA]
      simp
    · intro h rest heq
      exact absurd heq (by simp)
    · intro h rest scheme value heq _ _
      exact absurd heq (by simp)
  · rcases hsplit : goSplitSpace h0 with _ | ⟨p1, _ | ⟨p2, _ | ⟨p3, ptail⟩⟩⟩
    · have hA : a.Authorize notaryFn r = .error .invalidAuthHeader := by
        simp [Authorizer.Authorize, hauth, hsplit]
      refine ⟨?_, ?_, ?_⟩
      · rw [hA]
        simp
      · intro h rest heq
        injection heq with hh hrest
        subst hh
        rw [hA, hsplit]
        simp
      · intro h rest scheme value heq hsp hlow
        injection heq with hh hrest
        subst hh
        rw [hsplit] at hsp
        exact absurd hsp (by simp)
    · have hA : a.Authorize notaryFn r = .error .invalidAuthHeader := by
        simp [Authorizer.Authorize, hauth, hsplit]
      refine ⟨?_, ?_, ?_⟩
      · rw [hA]
        simp
      · intro h rest heq
        injection heq with hh hrest
        subst hh
        rw [hA, hsplit]
        simp
      · intro h rest scheme value heq hsp hlow
        injection heq with hh hrest
        subst hh
        rw [hsplit] at hsp
        exact absurd hsp (by simp)
    · by_cases hlow : goToLower p1 = "bearer"
      · refine ⟨?_, ?_, ?_⟩
        · rcases hnv : notaryFn p2 with e | m
          · have hA : a.Authorize notaryFn r = .error e := by
              simp [Authorizer.Authorize, hauth, hsplit, hlow, hnv]
            rw [hA]
            exact iff_of_false
              (fun hcontra => absurd (Except.error.inj hcontra) (hn p2 e hnv).1)
              (by simp)
          · have hA : a.Authorize notaryFn r = .ok (a.updateContext r m) := by
              simp [Authorizer.Authorize, hauth, hsplit, hlow, hnv]
            rw [hA]
            exact iff_of_false (by simp) (by simp)
        · intro h rest heq
          injection heq with hh hrest
          subst hh
          rcases hnv : notaryFn p2 with e | m
          · have hA : a.Authorize notaryFn r = .error e := by
              simp [Authorizer.Authorize, hauth, hsplit, hlow, hnv]
            rw [hA]
            exact iff_of_false
              (fun hcontra => absurd (Except.error.inj hcontra) (hn p2 e hnv).2)
              (fun hcontra => hcontra ⟨p1, p2, hsplit, hlow⟩)
          · have hA : a.Authorize notaryFn r = .ok (a.updateContext r m) := by
              simp [Authorizer.Authorize, hauth, hsplit, hlow, hnv]
            rw [hA]
            exact iff_of_false (by simp)
              (fun hcontra => hcontra ⟨p1, p2, hsplit, hlow⟩)
        · intro h rest scheme value heq hsp hlw
          injection heq with hh hrest
          subst hh
          rw [hsplit] at hsp
          obtain ⟨hs1, hs2⟩ : p1 = scheme ∧ p2 = value := by simpa using hsp
          subst hs1
          subst hs2
          constructor
          · intro e he
            simp [Authorizer.Authorize, hauth, hsplit, hlow, he]
          · intro m hm
            simp [Authorizer.Authorize, hauth, hsplit, hlow, hm]
      · have hA : a.Authorize notaryFn r = .error .invalidAuthHeader := by
          simp [Authorizer.Authorize, hauth, hsplit, hlow]
        refine ⟨?_, ?_, ?_⟩
        · rw [hA]
          simp
        · intro h rest heq
          injection heq with hh hrest
          subst hh
          rw [hA]
          refine iff_of_true rfl ?_
          rintro ⟨scheme, value, hsp, hlw⟩
          rw [hsplit] at hsp
          obtain ⟨hs1, -⟩ : p1 = scheme ∧ p2 = value := by simpa using hsp
          rw [← hs1] at hlw
          exact hlow hlw
        · intro h rest scheme value heq hsp hlw
          injection heq with hh hrest
          subst hh
          rw [hsplit] at hsp
          obtain ⟨hs1, -⟩ : p1 = scheme ∧ p2 = value := by simpa using hsp
          rw [← hs1] at hlw
          exact absurd hlw hlow
    · have hA : a.Authorize notaryFn r = .error .invalidAuthHeader := by
        simp [Authorizer.Authorize, hauth, hsplit]
      refine ⟨?_, ?_, ?_⟩
      · rw [hA]
        simp
      · intro h rest heq
        injection heq with hh hrest
        subst hh
        rw [hA, hsplit]
        simp
      · intro h rest scheme value heq hsp hlow
        injection heq with hh hrest
        subst hh
        rw [hsplit] at hsp
        exact absurd hsp (by simp)

/-- Witness for C5: a well-formed bearer header delegates to the notary
collaborator and its ErrInvalidToken comes back unchanged. -/
theorem C5_witness :
    sampleAuthorizer.Authorize rejectAllNotary sampleBearerRequest =
      .error .invalidToken := by
  have hn : ∀ v e, rejectAllNotary v = .error e →
      e ≠ GoError.missingAuthHeader ∧ e ≠ GoError.invalidAuthHeader := by
    intro v e h
    have h' : Except.error GoError.invalidToken = Except.error e := h
    injection h' with h1
    rw [← h1]
    exact ⟨by decide, by decide⟩
  exact ((C5_authorize_header_policy sampleAuthorizer rejectAllNotary
      sampleBearerRequest hn).2.2 "Bearer tok" [] "Bearer" "tok" rfl
      (by decide) (by decide)).1 .invalidToken rfl

/-! ## Helper lemmas about the authorization chain -/

/-- A key absent from a claim map looks up to the zero value nil. -/
theorem lookupV_eq_vNull_of_not_mem :
    ∀ (m : ClaimMap) (k : String), k ∉ m.map Prod.fst → lookupV m k = .vNull
  | [], _, _ => rfl
  | (k', v) :: rest, k, hk => by
    rw [List.map_cons, List.mem_cons] at hk
    push_neg at hk
    simp only [lookupV]
    rw [if_neg (fun hc => hk.1 hc.symm)]
    exact lookupV_eq_vNull_of_not_mem rest k hk.2

/-- Projection entries for other context keys do not affect a lookup. -/
theorem ctxValue_fold_not_mem (m : ClaimMap) (k : String) :
    ∀ (mapping : List (String × String)) (c : Ctx),
      k ∉ mapping.map Prod.fst →
      ctxValue (mapping.foldl (fun acc p => (p.1, lookupV m p.2) :: acc) c) k =
        ctxValue c k
  | [], _, _ => rfl
  | p :: rest, c, hk => by
    rw [List.map_cons, List.mem_cons] at hk
    push_neg at hk
    simp only [List.foldl_cons]
    rw [ctxValue_fold_not_mem m k rest ((p.1, lookupV m p.2) :: c) hk.2]
    simp only [ctxValue]
    rw [if_neg (fun hc => hk.1 hc.symm)]

/-- After projecting a claim map over a mapping with unique context keys,
each mapped context key holds the looked-up claim value. -/
theorem ctxValue_fold_mem (m : ClaimMap) (ck cn : String) :
    ∀ (mapping : List (String × String)) (c : Ctx),
      (ck, cn) ∈ mapping → (mapping.map Prod.fst).Nodup →
      ctxValue (mapping.foldl (fun acc p => (p.1, lookupV m p.2) :: acc) c) ck =
        some (lookupV m cn)
  | [], _, hmem, _ => absurd hmem (by simp)
  | p :: rest, c, hmem, hnd => by
    rw [List.map_cons, List.nodup_cons] at hnd
    simp only [List.foldl_cons]
    rcases List.mem_cons.mp hmem with hep | hmem'
    · subst hep
      rw [ctxValue_fold_not_mem m ck rest _ hnd.1]
      simp [ctxValue]
    · exact ctxValue_fold_mem m ck cn rest ((p.1, lookupV m p.2) :: c) hmem' hnd.2

/-- Against a well-formed bearer header with value v, a configured token
matches exactly when its value is v, and the match carries the decoded
claims of v. -/
theorem tokenMatches_bearer (decode : String → Option ClaimMap)
    (value : String) (r : Request) (scheme v : String)
    (hh : goSplitSpace (headerGet r.authorization) = [scheme, v])
    (hlow : goToLower scheme = "bearer") :
    AuthorizedToken.Matches decode value r =
      if v = value then (decode v, true) else (none, false) := by
  have hne : ¬(headerGet r.authorization = "") := by
    intro hcontra
    rw [hcontra] at hh
    simp [goSplitSpace, splitSpaces] at hh
  by_cases hv : v = value
  · subst hv
    simp [AuthorizedToken.Matches, hne, hh, hlow]
  · simp [AuthorizedToken.Matches, hne, hh, hlow, hv]

/-- Against a well-formed bearer header with value v, the static-token
loop finds a match exactly when v is a configured token value, and the
match carries the decoded claims of v. -/
theorem firstTokenMatch_bearer (decode : String → Option ClaimMap)
    (r : Request) (scheme v : String)
    (hh : goSplitSpace (headerGet r.authorization) = [scheme, v])
    (hlow : goToLower scheme = "bearer") :
    ∀ tokens : List String,
      firstTokenMatch decode r tokens =
        if v ∈ tokens then some (decode v) else none
  | [] => by simp [firstTokenMatch]
  | t :: ts => by
    simp only [firstTokenMatch]
    rw [tokenMatches_bearer decode t r scheme v hh hlow]
    by_cases hv : v = t
    · subst hv
      simp
    · simp only [if_neg hv]
      rw [firstTokenMatch_bearer decode r scheme v hh hlow ts]
      simp [List.mem_cons, hv]

/-! ## Fixtures for the chain claims -/

/-- A handler with one static token tok and one required claim (k, v). -/
def sampleHandler : Handler := ⟨[], ["tok"], [("k", .vStr "v")], [], []⟩

/-- A handler with only a required claim (k, v) configured. -/
def sampleClaimsHandler : Handler := ⟨[], [], [("k", .vStr "v")], [], []⟩

/-- A handler with one static token and a claim-to-context mapping. -/
def sampleMappedHandler : Handler := ⟨[], ["tok"], [], [], [("claim", "claim")]⟩

/-- A handler with nothing configured at all. -/
def sampleEmptyHandler : Handler := ⟨[], [], [], [], []⟩

/-- A decode model under which every value decodes to the empty object. -/
def sampleDecode : String → Option ClaimMap := fun _ => some []

/-- A decode model under which tok decodes to the claim object holding
value under claim. -/
def sampleDecodeClaims : String → Option ClaimMap :=
  fun v => if v = "tok" then some [("claim", .vStr "value")] else none

/-- A verification strategy that succeeds with a nil claim map. -/
def sampleStrategy : Request → Except GoError (Option ClaimMap) :=
  fun _ => .ok none

/-- A verification strategy that succeeds with the claim set (k, v). -/
def sampleMatchingStrategy : Request → Except GoError (Option ClaimMap) :=
  fun _ => .ok (some [("k", .vStr "v")])

/-- A request presenting the bearer value tok and nothing else. -/
def sampleTokenRequest : Request := ⟨["Bearer tok"], [], none, []⟩

/-! ## Claim theorems about the authorization chain -/

/-- Counterexample to C2 as stated: a required claim is configured and the
request carries a matching static token whose decoded claim set matches no
configured (key, expectedValue) pair, yet the chain forwards the request
instead of denying it. -/
theorem C2_counterexample :
    sampleHandler.Serve sampleDecode sampleStrategy sampleTokenRequest =
      .forwarded sampleTokenRequest
    ∧ sampleHandler.authorizedClaims ≠ []
    ∧ (∀ c ∈ sampleHandler.authorizedClaims,
        AuthorizedClaim.Matches (sampleDecode "tok") c = false) := by
  refine ⟨by decide, by decide, by decide⟩

/-- C2 (amended): required-claim enforcement applies only on the
verification-strategy path — when no basic credential and no static token
matched.  There, with at least one RequiredClaim configured, the request
is allowed iff the strategy succeeds and at least one configured
(key, expectedValue) pair equals an entry of the strategy's resolved claim
set, and is denied with an unauthorized status otherwise; a matching basic
credential or static token allows immediately, bypassing the
required-claim check. -/
theorem C2_required_claims (h : Handler) (decode : String → Option ClaimMap)
    (strategy : Request → Except GoError (Option ClaimMap)) (r : Request)
    (hb : h.basicAuthCredentials.any (fun c => BasicAuthCredential.Matches c r)
      = false)
    (ht : firstTokenMatch decode r h.authorizedTokens = none)
    (hc : h.authorizedClaims ≠ []) :
    (∀ e, strategy r = .error e → h.Serve decode strategy r = .unauthorized)
    ∧ (∀ claims, strategy r = .ok claims →
        (h.authorizedClaims.any (fun c => AuthorizedClaim.Matches claims c)
            = true →
          h.Serve decode strategy r = .forwarded (h.updateContext r claims))
        ∧ (h.authorizedClaims.any (fun c => AuthorizedClaim.Matches claims c)
            = false →
          h.Serve decode strategy r = .unauthorized)) := by
  constructor
  · intro e he
    simp [Handler.Serve, hb, ht, he]
  · intro claims hok
    constructor
    · intro hmatch
      simp [Handler.Serve, hb, ht, hok, hmatch]
    · intro hmatch
      rcases hcl : h.authorizedClaims with _ | ⟨a, as⟩
      · exact absurd hcl hc
      · rw [hcl] at hmatch
        simp [Handler.Serve, hb, ht, hok, hmatch, hcl]

/-- Witness for C2 (amended): with only a required claim configured, a
strategy resolving a matching claim set leads to forwarding. -/
theorem C2_witness :
    sampleClaimsHandler.Serve sampleDecode sampleMatchingStrategy
        sampleTokenRequest =
      .forwarded (sampleClaimsHandler.updateContext sampleTokenRequest
        (some [("k", .vStr "v")])) :=
  ((C2_required_claims sampleClaimsHandler sampleDecode sampleMatchingStrategy
      sampleTokenRequest rfl rfl (by decide)).2
    (some [("k", .vStr "v")]) rfl).1 (by decide)

/-- C6: past the API-key gate with no matching basic credential, a bearer
value equal to a configured static token forwards the request to the
wrapped handler with the token's decoded claim set projected through the
claim mapping; an undecodable value still forwards, with the request
context untouched. -/
theorem C6_static_token (h : Handler) (decode : String → Option ClaimMap)
    (strategy : Request → Except GoError (Option ClaimMap)) (r : Request)
    (scheme v : String)
    (hb : h.basicAuthCredentials.any (fun c => BasicAuthCredential.Matches c r)
      = false)
    (hh : goSplitSpace (headerGet r.authorization) = [scheme, v])
    (hlow : goToLower scheme = "bearer")
    (hmem : v ∈ h.authorizedTokens) :
    h.Serve decode strategy r = .forwarded (h.updateContext r (decode v))
    ∧ (decode v = none → h.updateContext r (decode v) = r) := by
  constructor
  · have hf := firstTokenMatch_bearer decode r scheme v hh hlow h.authorizedTokens
    rw [if_pos hmem] at hf
    simp [Handler.Serve, hb, hf]
  · intro hd
    rw [hd]
    rfl

/-- Witness for C6: a static token decoding to the claim object holding
value under claim forwards the request, and the context carries value at
the mapped key. -/
theorem C6_witness :
    sampleMappedHandler.Serve sampleDecodeClaims sampleStrategy
        sampleTokenRequest =
      .forwarded (sampleMappedHandler.updateContext sampleTokenRequest
        (sampleDecodeClaims "tok"))
    ∧ ctxValue (sampleMappedHandler.updateContext sampleTokenRequest
        (sampleDecodeClaims "tok")).ctx "claim" = some (.vStr "value") :=
  ⟨(C6_static_token sampleMappedHandler sampleDecodeClaims sampleStrategy
      sampleTokenRequest "Bearer" "tok" rfl (by decide) (by decide)
      (by decide)).1,
    by decide⟩

/-- C7: for every pair (contextKey, claimName) of the claim mapping (whose
context keys are the unique keys of a Go map), projecting a non-nil claim
set sets contextKey to the value stored under claimName — the zero value
nil when claimName is absent, with the key still set — while a nil claim
set performs no projection at all. -/
theorem C7_claim_projection (h : Handler) (r : Request) (m : ClaimMap)
    (ck cn : String) (hmem : (ck, cn) ∈ h.claimMapping)
    (hnd : (h.claimMapping.map Prod.fst).Nodup) :
    ctxValue (h.updateContext r (some m)).ctx ck = some (lookupV m cn)
    ∧ (cn ∉ m.map Prod.fst →
        ctxValue (h.updateContext r (some m)).ctx ck = some .vNull)
    ∧ h.updateContext r none = r := by
  have hmain : ctxValue (h.updateContext r (some m)).ctx ck =
      some (lookupV m cn) := by
    simp only [Handler.updateContext]
    exact ctxValue_fold_mem m ck cn h.claimMapping r.ctx hmem hnd
  refine ⟨hmain, ?_, rfl⟩
  intro habs
  rw [hmain, lookupV_eq_vNull_of_not_mem m cn habs]

/-- Witness for C7: projecting the claim set holding value under claim
through the mapping sets the context key claim to that value. -/
theorem C7_witness :
    ctxValue (sampleMappedHandler.updateContext sampleTokenRequest
      (some [("claim", Value.vStr "value")])).ctx "claim" =
      some (lookupV [("claim", Value.vStr "value")] "claim") :=
  (C7_claim_projection sampleMappedHandler sampleTokenRequest
    [("claim", .vStr "value")] "claim" "claim" (by decide) (by decide)).1

/-- C8: with no basic credentials, static tokens or required claims
configured, and the API-key gate passing or absent, the chain's outcome is
the verification strategy's outcome: an error denies with an unauthorized
status without invoking the wrapped handler, success forwards the
(possibly context-enriched) request to it. -/
theorem C8_strategy_only (h : Handler) (decode : String → Option ClaimMap)
    (strategy : Request → Except GoError (Option ClaimMap)) (r : Request)
    (hb : h.basicAuthCredentials = []) (ht : h.authorizedTokens = [])
    (hc : h.authorizedClaims = [])
    (hgate : h.apiKeys = [] ∨
      h.apiKeys.any (fun k => ApiKey.Matches k r) = true) :
    (∀ e, strategy r = .error e →
      h.ServeHTTP decode strategy r = .unauthorized)
    ∧ (∀ claims, strategy r = .ok claims →
        h.ServeHTTP decode strategy r =
          .forwarded (h.updateContext r claims)) := by
  have hserve : h.ServeHTTP decode strategy r = h.Serve decode strategy r := by
    rcases hgate with hg | hg
    · simp [Handler.ServeHTTP, hg]
    · simp [Handler.ServeHTTP, hg]
  constructor
  · intro e he
    rw [hserve]
    simp [Handler.Serve, hb, ht, hc, he, firstTokenMatch]
  · intro claims hok
    rw [hserve]
    simp [Handler.Serve, hb, ht, hc, hok, firstTokenMatch]

/-- Witness for C8: with nothing configured, a strategy succeeding with a
nil claim map leads to forwarding the request unchanged. -/
theorem C8_witness :
    sampleEmptyHandler.ServeHTTP sampleDecode sampleStrategy
        sampleTokenRequest =
      .forwarded (sampleEmptyHandler.updateContext sampleTokenRequest none) :=
  (C8_strategy_only sampleEmptyHandler sampleDecode sampleStrategy
    sampleTokenRequest rfl rfl rfl (Or.inl rfl)).2 none rfl
